import Mathlib

/-!
Verification of the media-feedback automation agent (`run.py`).

The definitions below are a shallow embedding of the Python source: pure
functions become Lean functions, the stateful polling / scheduling loops
become explicit state passing and a step relation, network I/O becomes
explicit environment parameters, and Python exceptions become `Except`.
Python strings that may be `None` are modelled by `PyStr := Option String`.
-/

deriving instance DecidableEq for Except

namespace MusicBrain

/-- A Python value that is either `None` or a string. -/
abbrev PyStr := Option String

/-- Python truthiness of a `None`-or-string value: `None` and `""` are falsy. -/
def truthy : PyStr → Bool
  | none => false
  | some s => s ≠ ""

/-- Python `x or ""`: the string itself when truthy, otherwise `""`. -/
def orEmpty : PyStr → String
  | none => ""
  | some s => s

/-- Python f-string interpolation of a `None`-or-string value (`None` prints as "None"). -/
def fstr : PyStr → String
  | none => "None"
  | some s => s

/-- Python `str.lower()` (character-wise, as for the ASCII data in play). -/
def pyLower (s : String) : String := ⟨s.data.map Char.toLower⟩

/-- Auxiliary: is `n` an infix of the list? -/
def listInfixAux (n : List Char) : List Char → Bool
  | [] => n.isPrefixOf ([] : List Char)
  | c :: t => n.isPrefixOf (c :: t) || listInfixAux n t

/-- Python substring test `needle in hay`. -/
def pyContains (hay needle : String) : Bool := listInfixAux needle.data hay.data

/-- Python `s.split("/")[-1]`: the trailing segment after the last slash. -/
def pySplitTail (s : String) : String := ((s.splitOn "/").getLastD "")

/-- First-match lookup in an association list (Python `dict.get`). -/
def dictGet {κ ν : Type} [DecidableEq κ] : List (κ × ν) → κ → Option ν
  | [], _ => none
  | (k', v') :: rest, k => if k' = k then some v' else dictGet rest k

/-- Update-or-append in an association list (Python `dict[k] = v`). -/
def dictSet {κ ν : Type} [DecidableEq κ] : List (κ × ν) → κ → ν → List (κ × ν)
  | [], k, v => [(k, v)]
  | (k', v') :: rest, k, v =>
      if k' = k then (k, v) :: rest else (k', v') :: dictSet rest k v

/-- A raw attribute value destined for `float(...)`: absent/empty (falsy),
present but unparsable, or a parsed number. Rationals stand in for the
(decimal) floating-point literals the media server reports. -/
inductive RawVal where
  | absent
  | unparsable
  | num (q : ℚ)
deriving DecidableEq

/-- The normalized rating bucket. Python uses the strings "like"/"dislike" and
`None`; we use `Option Rating` with `none` standing for Python's `None`
(the spec's "unrated"). -/
inductive Rating where
  | like
  | dislike
deriving DecidableEq

/-- `_normalize_rating` from run.py lines 143-159: bucket a raw rating value.
`None` or unparsable input gives `None`; values strictly within 0.1 of 10 or 5
give "like"; values strictly within 0.1 of 2 or 1 give "dislike". -/
def _normalize_rating : RawVal → Option Rating
  | .absent => none
  | .unparsable => none
  | .num f =>
      if |f - 10| < 1/10 ∨ |f - 5| < 1/10 then some .like
      else if |f - 2| < 1/10 ∨ |f - 1| < 1/10 then some .dislike
      else none

/-- A well-formed Lidarr search result: the field values that the dict
accesses in `_score_lidarr_candidate` produce on a JSON object whose `album`
field (when present) is itself an object. `title`/`artistName` hold the
`str(...)`-ified values, `hasFile` the truthiness of the flag, `id` the
id field (`none` when absent or null). -/
structure Candidate where
  title : String
  artistName : String
  albumTitle : String
  hasFile : Bool
  id : Option Int
deriving DecidableEq

/-- `_score_lidarr_candidate` from run.py lines 168-183: score a candidate
against the (already lowercased) known artist/track/album strings. -/
def _score_lidarr_candidate (hit : Candidate)
    (artist_lower track_lower album_lower : String) : Nat :=
  let hit_title := pyLower hit.title
  let hit_artist := pyLower hit.artistName
  let hit_album := pyLower hit.albumTitle
  let score := 0
  let score := if artist_lower ≠ "" ∧ pyContains hit_artist artist_lower then score + 2 else score
  let score := if track_lower ≠ "" ∧ pyContains hit_title track_lower then score + 2 else score
  let score := if album_lower ≠ "" ∧ pyContains hit_album album_lower then score + 2 else score
  let score := if hit.hasFile then score + 1 else score
  score

/-- The JSON value found under a raw hit's "album" key: absent (so
`hit.get("album", {})` yields `{}`), an object with a title, or a
non-object value (e.g. `null`) on which `.get("title", "")` raises. -/
inductive AlbumField where
  | absent
  | obj (title : String)
  | bad
deriving DecidableEq

/-- One item of the JSON list returned by Lidarr's track lookup: either a
JSON object (with the fields the code reads) or a non-object value, on
which every `.get` attribute access raises. -/
inductive RawHit where
  | obj (title artistName : String) (album : AlbumField) (hasFile : Bool) (id : Option Int)
  | notObj
deriving DecidableEq

/-- The dict accesses of run.py lines 169-171 (plus the safe `hasFile`/`id`
reads): they raise (`.error`) on a non-object hit or a non-object album
value, and otherwise produce a well-formed `Candidate`. -/
def toCandidate : RawHit → Except Unit Candidate
  | .notObj => .error ()
  | .obj t a alb hf i =>
      match alb with
      | .bad => .error ()
      | .absent => .ok ⟨t, a, "", hf, i⟩
      | .obj albT => .ok ⟨t, a, albT, hf, i⟩

/-- The "id" field of a raw hit (`hit.get("id")`), `none` when the hit is
not an object. -/
def rawId : RawHit → Option Int
  | .notObj => none
  | .obj _ _ _ _ i => i

/-- Scoring a raw hit: the accessor part may raise, the arithmetic part is
`_score_lidarr_candidate`. -/
def scoreRawHit (h : RawHit) (aL tL abL : String) : Except Unit Nat :=
  (toCandidate h).map (fun c => _score_lidarr_candidate c aL tL abL)

/-- Auxiliary loop of Python's builtin `max(results, key=...)`: keep the
running best, replacing it only on a strictly greater key (so ties keep the
first-encountered element); a raising key evaluation propagates. -/
def pyMaxGo {α : Type} (key : α → Except Unit Nat) (best : α) (kb : Nat) :
    List α → Except Unit α
  | [] => .ok best
  | y :: ys =>
      match key y with
      | .error e => .error e
      | .ok ky => if kb < ky then pyMaxGo key y ky ys else pyMaxGo key best kb ys

/-- Python's builtin `max(results, key=...)` (raises on an empty list, which
the caller rules out). -/
def pyMaxE {α : Type} (key : α → Except Unit Nat) : List α → Except Unit α
  | [] => .error ()
  | x :: xs =>
      match key x with
      | .error e => .error e
      | .ok kx => pyMaxGo key x kx xs

/-- The responses of Lidarr's `/api/v1/track/lookup` endpoint, per search
term: `none` models a failed request, a non-200 status, an undecodable body
or a non-list JSON value (all of which make the code `continue`); `some hits`
models a JSON list. -/
abbrev SearchEnv := String → Option (List RawHit)

/-- The outcome of Lidarr's DELETE endpoint for a given track id: `true`
iff the request succeeds with status 200/202/204. -/
abbrev DeleteEnv := Int → Bool

/-- The dict `{"id": ..., "title": ..., "artistName": ...}` returned by a
successful lookup; only the id is consumed (title/artistName feed logging). -/
structure MatchRes where
  id : Int
deriving DecidableEq

/-- The `search_terms` list built in run.py lines 191-205: pairwise
concatenations of the truthy fields, in order, then the guid's trailing
segment when nonempty and not already present. -/
def lidarr_search_terms (artist_name track_title album_title guid_raw : PyStr) :
    List String :=
  let ts : List String := []
  let ts := if truthy artist_name && truthy track_title then
      ts ++ [fstr artist_name ++ " " ++ fstr track_title] else ts
  let ts := if truthy artist_name && truthy album_title then
      ts ++ [fstr artist_name ++ " " ++ fstr album_title] else ts
  let ts := if truthy track_title then ts ++ [fstr track_title] else ts
  let ts := if truthy album_title && truthy artist_name then
      ts ++ [fstr album_title ++ " " ++ fstr artist_name] else ts
  let ts := if truthy guid_raw then
      (let tail := pySplitTail (fstr guid_raw)
       if tail ≠ "" && !(ts.contains tail) then ts ++ [tail] else ts)
    else ts
  ts

/-- The per-term loop of run.py lines 211-252: skip failed/empty responses;
for the first nonempty result list take the score-maximal hit and return its
projection when its score is at least 2 and its id is non-null, otherwise
try the next term; return `None` when the terms are exhausted. -/
def lidarr_lookup_go (env : SearchEnv) (aL tL abL : String) :
    List String → Except Unit (Option MatchRes)
  | [] => .ok none
  | term :: rest =>
      match env term with
      | none => lidarr_lookup_go env aL tL abL rest
      | some [] => lidarr_lookup_go env aL tL abL rest
      | some (h :: hs) =>
          match pyMaxE (fun x => scoreRawHit x aL tL abL) (h :: hs) with
          | .error e => .error e
          | .ok best =>
              match scoreRawHit best aL tL abL with
              | .error e => .error e
              | .ok best_score =>
                  if 2 ≤ best_score ∧ (rawId best).isSome then
                    .ok (some ⟨(rawId best).getD 0⟩)
                  else lidarr_lookup_go env aL tL abL rest

/-- `lidarr_track_lookup_multi` from run.py lines 185-252 (the service is
taken as configured: the missing-URL/key early return is not modelled). -/
def lidarr_track_lookup_multi (env : SearchEnv)
    (artist_name track_title album_title guid_raw : PyStr) :
    Except Unit (Option MatchRes) :=
  lidarr_lookup_go env
    (pyLower (orEmpty artist_name)) (pyLower (orEmpty track_title))
    (pyLower (orEmpty album_title))
    (lidarr_search_terms artist_name track_title album_title guid_raw)

/-- `lidarr_delete_track` from run.py lines 254-277: issue the DELETE and
report success; all failures are absorbed into `false`. -/
def lidarr_delete_track (del : DeleteEnv) (track_id : Int) : Bool :=
  del track_id

/-- `purge_with_lidarr` from run.py lines 279-303, returning the list of
track ids for which a delete request was issued; an exception escaping the
lookup propagates (as `.error`) before any delete is attempted. -/
def purge_with_lidarr (env : SearchEnv) (del : DeleteEnv)
    (artist_name track_title album_title guid_raw : PyStr) :
    Except Unit (List Int) :=
  match lidarr_track_lookup_multi env artist_name track_title album_title guid_raw with
  | .error e => .error e
  | .ok none => .ok []
  | .ok (some m) =>
      let _ok := lidarr_delete_track del m.id
      .ok [m.id]

/-- A per-artist record of liked.json: track list and last-seen timestamp. -/
structure LikedEntry where
  tracks : List PyStr
  last_seen : Option String
deriving DecidableEq

/-- A per-artist record of disliked.json: track list, ban flag and
last-seen timestamp. -/
structure DislikedEntry where
  tracks : List PyStr
  ban_artist : Bool
  last_seen : Option String
deriving DecidableEq

abbrev LikedMap := List (PyStr × LikedEntry)

abbrev DislikedMap := List (PyStr × DislikedEntry)

/-- `add_like` from run.py lines 309-317 with the stored file passed
explicitly; `now` is the current timestamp string. The entry for the artist
(fresh if absent) gets the track appended when not already present and its
last-seen stamp set, and is stored back. -/
def add_like (now : String) (liked : LikedMap) (artist track : PyStr) : LikedMap :=
  let entry := (dictGet liked artist).getD ⟨[], none⟩
  let newTracks := if track ∈ entry.tracks then entry.tracks
    else entry.tracks ++ [track]
  dictSet liked artist ⟨newTracks, some now⟩

/-- `add_dislike` from run.py lines 319-329 with the stored file passed
explicitly. -/
def add_dislike (now : String) (disliked : DislikedMap) (artist track : PyStr)
    (ban_artist : Bool) : DislikedMap :=
  let entry := (dictGet disliked artist).getD ⟨[], false, none⟩
  let newTracks := if track ∈ entry.tracks then entry.tracks
    else entry.tracks ++ [track]
  let newBan := if ban_artist then true else entry.ban_artist
  dictSet disliked artist ⟨newTracks, newBan, some now⟩

/-- The two persisted preference files. -/
structure Store where
  liked : LikedMap
  disliked : DislikedMap
deriving DecidableEq

/-- The observable outcome of `_act_on_rating`: the returned value (or the
propagated exception), the resulting store, and the delete requests issued. -/
structure ActResult where
  ret : Except Unit Bool
  store : Store
  deletes : List Int
deriving DecidableEq

/-- `_act_on_rating` from run.py lines 331-347: record a like, or record a
dislike and then run the Lidarr purge, or do nothing. An exception escaping
the purge propagates after the dislike has been written. -/
def _act_on_rating (env : SearchEnv) (del : DeleteEnv) (now : String)
    (artist track album guid_raw : PyStr) (normalized_bucket : Option Rating)
    (st : Store) : ActResult :=
  match normalized_bucket with
  | some .like => ⟨.ok true, { st with liked := add_like now st.liked artist track }, []⟩
  | some .dislike =>
      let st' := { st with disliked := add_dislike now st.disliked artist track false }
      match purge_with_lidarr env del artist track album guid_raw with
      | .ok ds => ⟨.ok true, st', ds⟩
      | .error e => ⟨.error e, st', []⟩
  | none => ⟨.ok false, st, []⟩

/-- One polled observation of a playing track (run.py lines 491-499). -/
structure Snap where
  artist : PyStr
  album : PyStr
  track : PyStr
  guid : PyStr
  ratingKey : PyStr
  progress_fraction : ℚ
  user_rating_raw : PyStr
deriving DecidableEq

/-- The XML attributes of one `<Track>` element of the sessions listing.
`viewOffset`/`duration` carry their `float(...)` parse status. -/
structure TrackAttrs where
  grandparentTitle : PyStr
  parentTitle : PyStr
  title : PyStr
  guid : PyStr
  ratingKey : PyStr
  viewOffset : RawVal
  duration : RawVal
  userRating : PyStr
deriving DecidableEq

/-- run.py lines 483-486: `float(view_offset or 0) / float(duration or 1)`
with every exception (unparsable value, division by zero) giving `0.0`. -/
def computeFrac (vo du : RawVal) : ℚ :=
  let von : Option ℚ := match vo with
    | .absent => some 0
    | .num q => some q
    | .unparsable => none
  let dun : Option ℚ := match du with
    | .absent => some 1
    | .num q => some q
    | .unparsable => none
  match von, dun with
  | some a, some b => if b = 0 then 0 else a / b
  | _, _ => 0

/-- run.py line 489: `sid = rating_key or f"{artist}-{title}"`. -/
def sidOf (ratingKey artist title : PyStr) : String :=
  match ratingKey with
  | some k => if k ≠ "" then k else fstr artist ++ "-" ++ fstr title
  | none => fstr artist ++ "-" ++ fstr title

/-- The snapshot dict stored into `CURRENT_TRACKS` for one track element. -/
def snapOf (a : TrackAttrs) : Snap :=
  ⟨a.grandparentTitle, a.parentTitle, a.title, a.guid, a.ratingKey,
   computeFrac a.viewOffset a.duration, a.userRating⟩

/-- The session id chosen for one track element. -/
def sidOfAttrs (a : TrackAttrs) : String :=
  sidOf a.ratingKey a.grandparentTitle a.title

/-- The poller's shared state: `CURRENT_TRACKS`, `RECENTLY_FINISHED` and the
loop-local `last_active` set. -/
structure PollState where
  currentTracks : List (String × Snap)
  recentlyFinished : List (String × Snap)
  lastActive : List String
deriving DecidableEq

/-- The per-track body of one successful iteration of `poll_plex_sessions`
(run.py lines 471-500): store the parsed snapshot under the session id and
record the id as seen. Together with `pollCycle` below this models run.py
lines 468-519: store a snapshot for every listed track (overwriting per session id, later
duplicates last), compute `ended = last_active - seen_now`, move the last
snapshot of every ended session into `RECENTLY_FINISHED`, and replace
`last_active`. `ended` is a Python set; iterating it in list order is
equivalent because the per-id updates touch distinct keys. -/
def pollStep (acc : List (String × Snap) × List String) (a : TrackAttrs) :
    List (String × Snap) × List String :=
  (dictSet acc.1 (sidOfAttrs a) (snapOf a), acc.2.insert (sidOfAttrs a))

/-- See the comment above `pollStep`; this is the whole cycle. -/
def pollCycle (st : PollState) (listing : List TrackAttrs) : PollState :=
  let res := listing.foldl pollStep (st.currentTracks, [])
  let ct := res.1
  let seen := res.2
  let ended := st.lastActive.filter (fun e => !(seen.contains e))
  let rf := ended.foldl (fun rf e =>
    match dictGet ct e with
    | none => rf
    | some snap => dictSet rf e snap) st.recentlyFinished
  ⟨ct, rf, seen⟩

/-- The response to the metadata re-fetch `GET /library/metadata/{key}`:
a non-200 status, a body without a usable `<Track>` node (covering both the
missing-node early return and an XML parse error caught by the worker's
catch-all), or a track node carrying the raw `userRating` attribute. -/
inductive MetaResp where
  | httpFail
  | badBody
  | track (userRating : RawVal)
deriving DecidableEq

abbrev MetaEnv := String → MetaResp

/-- The observable effects of one harvest worker: the metadata keys fetched,
the resulting store, and the delete requests issued. -/
structure WorkerResult where
  fetches : List String
  store : Store
  deletes : List Int
deriving DecidableEq

/-- `_harvest_final_rating_for_finished_track` from run.py lines 355-412:
skip entirely when the snapshot has no (truthy) ratingKey; otherwise wait out
the grace period (no observable effect), re-fetch metadata, normalize the
final rating and dispatch to `_act_on_rating`. The surrounding catch-all
swallows any exception, so an `.error` from the act step leaves exactly the
effects performed up to the raise. -/
def _harvest_final_rating_for_finished_track (meta : MetaEnv) (env : SearchEnv)
    (del : DeleteEnv) (now : String) (finished_snap : Snap) (st : Store) :
    WorkerResult :=
  let rating_key := finished_snap.ratingKey
  if truthy rating_key then
    let key := orEmpty rating_key
    match meta key with
    | .httpFail => ⟨[key], st, []⟩
    | .badBody => ⟨[key], st, []⟩
    | .track raw =>
        let normalized_bucket := _normalize_rating raw
        let r := _act_on_rating env del now finished_snap.artist finished_snap.track
          finished_snap.album finished_snap.guid normalized_bucket st
        ⟨[key], r.store, r.deletes⟩
  else ⟨[], st, []⟩

/-- The state shared by the poll loop and the single `finished_watcher_loop`
thread: the keys of `RECENTLY_FINISHED`, the `_FINISHED_ALREADY_SCHEDULED`
set, the multiset of session ids for which a worker thread was started, and
the scheduler's program counter between `t.start()` (line 438) and the
`add(session_id)` (line 439). -/
structure SchedState where
  recentlyFinished : List String
  scheduled : List String
  launched : List String
  pendingMark : Option String
deriving DecidableEq

/-- All three shared structures start empty. -/
def SchedState.init : SchedState := ⟨[], [], [], none⟩

/-- The interleaved small-step behaviour of the poller and the scheduler
around the scheduling structures. `finish` is the poller inserting an ended
session id into `RECENTLY_FINISHED` (run.py line 513), possible at any time,
including between a worker launch and its scheduled-marking. `beginLaunch`
is the scheduler passing the membership test of line 424 and starting the
worker thread (line 438); since there is exactly one scheduler thread, a new
launch cannot begin before the previous `endLaunch` (line 439) marks the id
as scheduled. Nothing ever removes from `_FINISHED_ALREADY_SCHEDULED`. -/
inductive SchedStep : SchedState → SchedState → Prop where
  | finish (st : SchedState) (sid : String) :
      SchedStep st { st with recentlyFinished := st.recentlyFinished.insert sid }
  | beginLaunch (st : SchedState) (sid : String)
      (h1 : st.pendingMark = none)
      (h2 : sid ∈ st.recentlyFinished)
      (h3 : sid ∉ st.scheduled) :
      SchedStep st { st with launched := sid :: st.launched, pendingMark := some sid }
  | endLaunch (st : SchedState) (sid : String)
      (h : st.pendingMark = some sid) :
      SchedStep st { st with scheduled := st.scheduled.insert sid, pendingMark := none }

/-- States reachable from the initial state by any interleaving. -/
def SchedReachable : SchedState → Prop :=
  Relation.ReflTransGen SchedStep SchedState.init

/-- Case-insensitive containment of a non-empty known value inside a
candidate field, the claims' notion of a substring match. -/
def substrMatch (known : PyStr) (field : String) : Bool :=
  truthy known && pyContains (pyLower field) (pyLower (orEmpty known))

/-! ### General lemmas about the helpers -/

theorem dictGet_dictSet {κ ν : Type} [DecidableEq κ]
    (m : List (κ × ν)) (k : κ) (v : ν) (k' : κ) :
    dictGet (dictSet m k v) k' = if k = k' then some v else dictGet m k' := by
  induction m with
  | nil => simp [dictGet, dictSet]
  | cons p rest ih =>
      obtain ⟨k1, v1⟩ := p
      by_cases h : k1 = k
      · subst h
        by_cases h' : k1 = k' <;> simp [dictGet, dictSet, h']
      · simp only [dictSet, if_neg h]
        by_cases h' : k1 = k'
        · subst h'
          have hne : ¬ k = k1 := fun hc => h hc.symm
          simp [dictGet, hne, ih]
        · simp [dictGet, h', ih]

theorem count_eq_one_of_nodup_mem {l : List PyStr} {t : PyStr}
    (hnd : l.Nodup) (hm : t ∈ l) : l.count t = 1 := by
  induction l with
  | nil => cases hm
  | cons x xs ih =>
      rcases List.mem_cons.mp hm with h | h
      · subst h
        have hx : t ∉ xs := (List.nodup_cons.mp hnd).1
        simp [List.count_cons, List.count_eq_zero.mpr hx]
      · have hx : x ∉ xs := (List.nodup_cons.mp hnd).1
        have hne : ¬ t = x := fun hc => hx (hc ▸ h)
        simp [List.count_cons, hne, ih (List.nodup_cons.mp hnd).2 h]

theorem pyLower_empty_iff (s : String) : pyLower s = "" ↔ s = "" := by
  obtain ⟨data⟩ := s
  simp [pyLower, String.ext_iff]

theorem truthy_eq (p : PyStr) : truthy p = true ↔ orEmpty p ≠ "" := by
  cases p <;> simp [truthy, orEmpty]

theorem appendNew_spec (tr : List PyStr) (t : PyStr) (hnd : tr.Nodup) :
    (if t ∈ tr then tr else tr ++ [t]).count t = 1 ∧
    (if t ∈ tr then tr else tr ++ [t]).Nodup ∧
    t ∈ (if t ∈ tr then tr else tr ++ [t]) := by
  by_cases h : t ∈ tr
  · simp only [if_pos h]
    exact ⟨count_eq_one_of_nodup_mem hnd h, hnd, h⟩
  · simp only [if_neg h]
    refine ⟨?_, ?_, by simp⟩
    · have : tr.count t = 0 := List.count_eq_zero.mpr h
      simp [List.count_append, this]
    · simp [List.nodup_append, hnd, h]

theorem add_like_lookup (now : String) (liked : LikedMap) (a t : PyStr) :
    ∃ e : LikedEntry, dictGet (add_like now liked a t) a = some e ∧
      t ∈ e.tracks ∧ e.last_seen = some now := by
  unfold add_like
  rw [dictGet_dictSet, if_pos rfl]
  refine ⟨_, rfl, ?_, rfl⟩
  dsimp only
  by_cases h : t ∈ ((dictGet liked a).getD ⟨[], none⟩).tracks
  · simp [h]
  · simp [h]

theorem add_dislike_lookup (now : String) (disliked : DislikedMap) (a t : PyStr) :
    ∃ e : DislikedEntry, dictGet (add_dislike now disliked a t false) a = some e ∧
      t ∈ e.tracks ∧ e.last_seen = some now := by
  unfold add_dislike
  rw [dictGet_dictSet, if_pos rfl]
  refine ⟨_, rfl, ?_, rfl⟩
  dsimp only
  by_cases h : t ∈ ((dictGet disliked a).getD ⟨[], false, none⟩).tracks
  · simp [h]
  · simp [h]

/-! ### Claim theorems -/

/-- Claim C3: the rating normalizer is total; absent or unparsable input is
unrated; a value strictly within 0.1 of 10 or 5 is a like; a value strictly
within 0.1 of 2 or 1 is a dislike; every other value is unrated; and the
spec's sample points evaluate as listed. -/
theorem normalize_rating_spec :
    (_normalize_rating .absent = none) ∧
    (_normalize_rating .unparsable = none) ∧
    (∀ q : ℚ, |q - 10| < 1/10 ∨ |q - 5| < 1/10 →
      _normalize_rating (.num q) = some .like) ∧
    (∀ q : ℚ, |q - 2| < 1/10 ∨ |q - 1| < 1/10 →
      _normalize_rating (.num q) = some .dislike) ∧
    (∀ q : ℚ, ¬(|q - 10| < 1/10 ∨ |q - 5| < 1/10 ∨ |q - 2| < 1/10 ∨ |q - 1| < 1/10) →
      _normalize_rating (.num q) = none) ∧
    (_normalize_rating (.num 10) = some .like ∧
     _normalize_rating (.num (101/20)) = some .like ∧
     _normalize_rating (.num 1) = some .dislike ∧
     _normalize_rating (.num (52/25)) = some .dislike ∧
     _normalize_rating (.num 7) = none) := by
  refine ⟨rfl, rfl, ?_, ?_, ?_, ?_⟩
  · intro q h
    simp only [_normalize_rating]
    rw [if_pos h]
  · intro q h
    have hnl : ¬(|q - 10| < 1/10 ∨ |q - 5| < 1/10) := by
      rcases h with h | h <;> rw [abs_lt] at h <;>
        rintro (h' | h') <;> rw [abs_lt] at h' <;>
          obtain ⟨ha, hb⟩ := h <;> obtain ⟨hc, hd⟩ := h' <;> linarith
    simp only [_normalize_rating]
    rw [if_neg hnl, if_pos h]
  · intro q h
    push_neg at h
    obtain ⟨h1, h2, h3, h4⟩ := h
    simp only [_normalize_rating]
    rw [if_neg (by rintro (h | h) <;> linarith),
      if_neg (by rintro (h | h) <;> linarith)]
  · refine ⟨?_, ?_, ?_, ?_, ?_⟩ <;>
      · simp only [_normalize_rating, abs_sub_lt_iff]
        norm_num

/-- Witness for C3 at the sample inputs 10 and 2.08. -/
theorem normalize_rating_spec_witness :
    _normalize_rating (.num 10) = some .like ∧
    _normalize_rating (.num (52/25)) = some .dislike :=
  ⟨normalize_rating_spec.2.2.1 10
    (Or.inl (by rw [abs_sub_lt_iff]; constructor <;> norm_num)),
   normalize_rating_spec.2.2.2.1 (52/25)
    (Or.inl (by rw [abs_sub_lt_iff]; constructor <;> norm_num))⟩

/-- Claim C10: a harvest worker given a snapshot with an absent or empty
ratingKey is a no-op: it fetches no metadata, leaves the store untouched and
issues no delete requests. -/
theorem harvest_skips_without_rating_key (meta : MetaEnv) (env : SearchEnv)
    (del : DeleteEnv) (now : String) (snap : Snap) (st : Store)
    (h : snap.ratingKey = none ∨ snap.ratingKey = some "") :
    _harvest_final_rating_for_finished_track meta env del now snap st =
      ⟨[], st, []⟩ := by
  unfold _harvest_final_rating_for_finished_track
  rcases h with h | h <;> rw [h] <;> rfl

/-- Witness for C10 on a concrete snapshot with no ratingKey. -/
theorem harvest_skips_without_rating_key_witness :
    _harvest_final_rating_for_finished_track (fun _ => .track (.num 10))
      (fun _ => none) (fun _ => true) "2024"
      ⟨some "A", none, some "T", none, none, 0, none⟩ ⟨[], []⟩ =
      ⟨[], ⟨[], []⟩, []⟩ :=
  harvest_skips_without_rating_key _ _ _ _ _ _ (Or.inl rfl)

/-- Claim C2: the decision routine records a like and returns `True` on the
like bucket; on the dislike bucket it first writes the disliked entry, then
runs the purge — the resulting store is exactly the post-`add_dislike` store
whatever the purge does, the returned value is `True` whenever the purge
completes, and the delete requests are exactly the purge's; on the unrated
bucket it mutates nothing and returns `False`. -/
theorem act_on_rating_spec (env : SearchEnv) (del : DeleteEnv) (now : String)
    (a t al g : PyStr) (st : Store) :
    (_act_on_rating env del now a t al g (some .like) st =
        ⟨.ok true, { st with liked := add_like now st.liked a t }, []⟩ ∧
      ∃ e : LikedEntry, dictGet (add_like now st.liked a t) a = some e ∧
        t ∈ e.tracks) ∧
    ((_act_on_rating env del now a t al g (some .dislike) st).store =
        { st with disliked := add_dislike now st.disliked a t false } ∧
      (_act_on_rating env del now a t al g (some .dislike) st).ret =
        (purge_with_lidarr env del a t al g).map (fun _ => true) ∧
      (_act_on_rating env del now a t al g (some .dislike) st).deletes =
        (match purge_with_lidarr env del a t al g with
         | .ok ds => ds
         | .error _ => []) ∧
      ∃ e : DislikedEntry, dictGet (add_dislike now st.disliked a t false) a = some e ∧
        t ∈ e.tracks) ∧
    _act_on_rating env del now a t al g none st = ⟨.ok false, st, []⟩ := by
  refine ⟨⟨rfl, ?_⟩, ⟨?_, ?_, ?_, ?_⟩, rfl⟩
  · obtain ⟨e, he, hm, _⟩ := add_like_lookup now st.liked a t
    exact ⟨e, he, hm⟩
  · unfold _act_on_rating
    cases hp : purge_with_lidarr env del a t al g <;> simp [hp]
  · unfold _act_on_rating
    cases hp : purge_with_lidarr env del a t al g <;> simp [hp, Except.map]
  · unfold _act_on_rating
    cases hp : purge_with_lidarr env del a t al g <;> simp [hp]
  · obtain ⟨e, he, hm, _⟩ := add_dislike_lookup now st.disliked a t
    exact ⟨e, he, hm⟩

/-- Claim C9: adding the same (artist, track) twice to a duplicate-free
liked (resp. disliked) store leaves exactly one occurrence of the track,
keeps the list duplicate-free, and updates last-seen to the second
timestamp. -/
theorem add_like_dislike_idempotent (now1 now2 : String)
    (liked : LikedMap) (disliked : DislikedMap) (a t : PyStr)
    (h1 : ((dictGet liked a).getD ⟨[], none⟩).tracks.Nodup)
    (h2 : ((dictGet disliked a).getD ⟨[], false, none⟩).tracks.Nodup) :
    (∃ e : LikedEntry,
      dictGet (add_like now2 (add_like now1 liked a t) a t) a = some e ∧
      e.tracks.count t = 1 ∧ e.tracks.Nodup ∧ e.last_seen = some now2) ∧
    (∃ e : DislikedEntry,
      dictGet (add_dislike now2 (add_dislike now1 disliked a t false) a t false) a = some e ∧
      e.tracks.count t = 1 ∧ e.tracks.Nodup ∧ e.last_seen = some now2) := by
  obtain ⟨hc1, hn1, hm1⟩ :=
    appendNew_spec ((dictGet liked a).getD ⟨[], none⟩).tracks t h1
  obtain ⟨hc2, hn2, hm2⟩ :=
    appendNew_spec ((dictGet disliked a).getD ⟨[], false, none⟩).tracks t h2
  constructor
  · have g1 : dictGet (add_like now1 liked a t) a =
        some ⟨if t ∈ ((dictGet liked a).getD ⟨[], none⟩).tracks then
                ((dictGet liked a).getD ⟨[], none⟩).tracks
              else ((dictGet liked a).getD ⟨[], none⟩).tracks ++ [t],
              some now1⟩ := by
      unfold add_like
      rw [dictGet_dictSet, if_pos rfl]
    refine ⟨⟨if t ∈ ((dictGet liked a).getD ⟨[], none⟩).tracks then
               ((dictGet liked a).getD ⟨[], none⟩).tracks
             else ((dictGet liked a).getD ⟨[], none⟩).tracks ++ [t],
             some now2⟩, ?_, hc1, hn1, rfl⟩
    conv_lhs =>
      rw [show add_like now2 (add_like now1 liked a t) a t =
        dictSet (add_like now1 liked a t) a
          ⟨if t ∈ (((dictGet (add_like now1 liked a t) a).getD ⟨[], none⟩)).tracks then
              (((dictGet (add_like now1 liked a t) a).getD ⟨[], none⟩)).tracks
            else (((dictGet (add_like now1 liked a t) a).getD ⟨[], none⟩)).tracks ++ [t],
            some now2⟩ from rfl]
    rw [dictGet_dictSet, if_pos rfl, g1]
    simp only [Option.getD_some]
    rw [if_pos hm1]
  · have g1 : dictGet (add_dislike now1 disliked a t false) a =
        some ⟨if t ∈ ((dictGet disliked a).getD ⟨[], false, none⟩).tracks then
                ((dictGet disliked a).getD ⟨[], false, none⟩).tracks
              else ((dictGet disliked a).getD ⟨[], false, none⟩).tracks ++ [t],
              ((dictGet disliked a).getD ⟨[], false, none⟩).ban_artist,
              some now1⟩ := by
      unfold add_dislike
      rw [dictGet_dictSet, if_pos rfl]
      rfl
    refine ⟨⟨if t ∈ ((dictGet disliked a).getD ⟨[], false, none⟩).tracks then
               ((dictGet disliked a).getD ⟨[], false, none⟩).tracks
             else ((dictGet disliked a).getD ⟨[], false, none⟩).tracks ++ [t],
             ((dictGet disliked a).getD ⟨[], false, none⟩).ban_artist,
             some now2⟩, ?_, hc2, hn2, rfl⟩
    conv_lhs =>
      rw [show add_dislike now2 (add_dislike now1 disliked a t false) a t false =
        dictSet (add_dislike now1 disliked a t false) a
          ⟨if t ∈ (((dictGet (add_dislike now1 disliked a t false) a).getD ⟨[], false, none⟩)).tracks then
              (((dictGet (add_dislike now1 disliked a t false) a).getD ⟨[], false, none⟩)).tracks
            else (((dictGet (add_dislike now1 disliked a t false) a).getD ⟨[], false, none⟩)).tracks ++ [t],
            if false then true
            else (((dictGet (add_dislike now1 disliked a t false) a).getD ⟨[], false, none⟩)).ban_artist,
            some now2⟩ from rfl]
    rw [dictGet_dictSet, if_pos rfl, g1]
    simp only [Option.getD_some, if_false]
    rw [if_pos hm2]
    rfl

/-- Witness for C9 on an empty store. -/
theorem add_like_dislike_idempotent_witness :
    (∃ e : LikedEntry,
      dictGet (add_like "t2" (add_like "t1" [] (some "A") (some "T")) (some "A") (some "T")) (some "A") = some e ∧
      e.tracks.count (some "T") = 1 ∧ e.tracks.Nodup ∧ e.last_seen = some "t2") ∧
    (∃ e : DislikedEntry,
      dictGet (add_dislike "t2" (add_dislike "t1" [] (some "A") (some "T") false) (some "A") (some "T") false) (some "A") = some e ∧
      e.tracks.count (some "T") = 1 ∧ e.tracks.Nodup ∧ e.last_seen = some "t2") :=
  add_like_dislike_idempotent "t1" "t2" [] [] (some "A") (some "T")
    (by simp [dictGet]) (by simp [dictGet])

/-- The scheduling invariant: the number of workers launched for a session
id is one exactly when the id is scheduled or its marking is in flight
(never both), and zero otherwise. -/
def schedInv (st : SchedState) : Prop :=
  ∀ sid : String,
    (st.pendingMark = some sid → sid ∉ st.scheduled) ∧
    st.launched.count sid =
      ((if sid ∈ st.scheduled then 1 else 0) +
       (if st.pendingMark = some sid then 1 else 0))

theorem schedInv_init : schedInv SchedState.init := by
  intro sid
  simp [schedInv, SchedState.init]

theorem schedInv_step {s s' : SchedState} (h : SchedStep s s')
    (hi : schedInv s) : schedInv s' := by
  cases h with
  | finish sid =>
      intro x
      exact hi x
  | beginLaunch sid h1 h2 h3 =>
      intro x
      obtain ⟨hp, hc⟩ := hi x
      rw [h1, if_neg (fun hcc => Option.noConfusion hcc), Nat.add_zero] at hc
      refine ⟨?_, ?_⟩
      · intro hx hmem
        exact h3 (Option.some.inj hx ▸ hmem)
      · by_cases hxe : x = sid
        · subst hxe
          rw [if_neg h3] at hc
          simp [List.count_cons, hc, h3]
        · have hne : ¬ sid = x := fun hcc => hxe hcc.symm
          simp [List.count_cons, hxe, hne, hc]
  | endLaunch sid hpm =>
      intro x
      obtain ⟨hp, hc⟩ := hi x
      rw [hpm] at hc
      refine ⟨?_, ?_⟩
      · intro hx
        exact Option.noConfusion hx
      · by_cases hxe : x = sid
        · subst hxe
          rw [if_neg (hp hpm), if_pos rfl] at hc
          simp [List.mem_insert_iff, hc]
        · have hne : ¬ sid = x := fun hcc => hxe hcc.symm
          rw [if_neg (fun hcc => hne (Option.some.inj hcc)), Nat.add_zero] at hc
          simp [List.mem_insert_iff, hxe, hc]

/-- Claim C1: along every interleaving of poller insertions and scheduler
scan steps, every session id has at most one harvest worker launched for it
— once marked scheduled (or while its marking is in flight) it is never
launched again, even if it reappears in `ended` computations meanwhile. -/
theorem scheduling_at_most_once (st : SchedState) (h : SchedReachable st)
    (sid : String) : st.launched.count sid ≤ 1 := by
  have h' : Relation.ReflTransGen SchedStep SchedState.init st := h
  clear h
  have hinv : schedInv st := by
    induction h' with
    | refl => exact schedInv_init
    | tail _ hstep ih => exact schedInv_step hstep ih
  obtain ⟨hp, hc⟩ := hinv sid
  by_cases hpm : st.pendingMark = some sid
  · rw [hc, if_neg (hp hpm), if_pos hpm]
  · rw [hc, if_neg hpm, Nat.add_zero]
    split <;> omega

/-- Witness for C1: a concrete three-step run (session ends, worker is
launched, id is marked scheduled) launches the worker exactly once. -/
theorem scheduling_at_most_once_witness :
    (SchedState.mk ["s"] ["s"] ["s"] none).launched.count "s" ≤ 1 := by
  have h1 : SchedStep SchedState.init ⟨["s"], [], [], none⟩ :=
    SchedStep.finish SchedState.init "s"
  have h2 : SchedStep ⟨["s"], [], [], none⟩ ⟨["s"], [], ["s"], some "s"⟩ :=
    SchedStep.beginLaunch ⟨["s"], [], [], none⟩ "s" rfl (by simp) (by simp)
  have h3 : SchedStep ⟨["s"], [], ["s"], some "s"⟩ ⟨["s"], ["s"], ["s"], none⟩ :=
    SchedStep.endLaunch ⟨["s"], [], ["s"], some "s"⟩ "s" rfl
  exact scheduling_at_most_once _
    (Relation.ReflTransGen.tail (Relation.ReflTransGen.tail
      (Relation.ReflTransGen.tail Relation.ReflTransGen.refl h1) h2) h3) "s"

theorem substrMatch_iff (known : PyStr) (field : String) :
    (substrMatch known field = true) ↔
      (pyLower (orEmpty known) ≠ "" ∧
        pyContains (pyLower field) (pyLower (orEmpty known)) = true) := by
  unfold substrMatch
  rw [Bool.and_eq_true, truthy_eq]
  constructor
  · rintro ⟨h1, h2⟩
    exact ⟨fun hc => h1 ((pyLower_empty_iff _).mp hc), h2⟩
  · rintro ⟨h1, h2⟩
    refine ⟨fun hc => h1 ?_, h2⟩
    rw [hc]
    rfl

theorem pyMaxGo_pure {α : Type} (f : α → Nat) (ys : List α) :
    ∀ best : α, ∃ r, pyMaxGo (fun c => .ok (f c)) best (f best) ys = .ok r ∧
      f best ≤ f r ∧ (∀ d ∈ ys, f d ≤ f r) ∧
      (r = best ∨ ∃ pre post, ys = pre ++ r :: post ∧ f best < f r ∧
        ∀ d ∈ pre, f d < f r) := by
  induction ys with
  | nil =>
      intro best
      exact ⟨best, rfl, le_refl _, by simp, Or.inl rfl⟩
  | cons y ys ih =>
      intro best
      have hstep : pyMaxGo (fun c => .ok (f c)) best (f best) (y :: ys) =
          if f best < f y then pyMaxGo (fun c => .ok (f c)) y (f y) ys
          else pyMaxGo (fun c => .ok (f c)) best (f best) ys := rfl
      by_cases hy : f best < f y
      · obtain ⟨r, hr, hle, hall, hfirst⟩ := ih y
        refine ⟨r, by rw [hstep, if_pos hy]; exact hr,
          le_of_lt (lt_of_lt_of_le hy hle), ?_, ?_⟩
        · intro d hd
          rcases List.mem_cons.mp hd with h' | h'
          · exact h' ▸ hle
          · exact hall d h'
        · rcases hfirst with rfl | ⟨pre, post, hys, hlt, hpre⟩
          · exact Or.inr ⟨[], ys, rfl, hy, by simp⟩
          · refine Or.inr ⟨y :: pre, post, by rw [hys]; rfl, lt_trans hy hlt, ?_⟩
            intro d hd
            rcases List.mem_cons.mp hd with h' | h'
            · exact h' ▸ hlt
            · exact hpre d h'
      · obtain ⟨r, hr, hle, hall, hfirst⟩ := ih best
        have hyb : f y ≤ f best := le_of_not_lt hy
        refine ⟨r, by rw [hstep, if_neg hy]; exact hr, hle, ?_, ?_⟩
        · intro d hd
          rcases List.mem_cons.mp hd with h' | h'
          · exact h' ▸ le_trans hyb hle
          · exact hall d h'
        · rcases hfirst with rfl | ⟨pre, post, hys, hlt, hpre⟩
          · exact Or.inl rfl
          · refine Or.inr ⟨y :: pre, post, by rw [hys]; rfl, hlt, ?_⟩
            intro d hd
            rcases List.mem_cons.mp hd with h' | h'
            · exact h' ▸ lt_of_le_of_lt hyb hlt
            · exact hpre d h'

theorem pyMaxE_pure {α : Type} (f : α → Nat) (cs : List α) (h : cs ≠ []) :
    ∃ best pre post, pyMaxE (fun c => .ok (f c)) cs = .ok best ∧
      cs = pre ++ best :: post ∧ (∀ d ∈ cs, f d ≤ f best) ∧
      (∀ d ∈ pre, f d < f best) := by
  cases cs with
  | nil => exact absurd rfl h
  | cons x xs =>
      obtain ⟨r, hr, hle, hall, hfirst⟩ := pyMaxGo_pure f xs x
      have hstep : pyMaxE (fun c => .ok (f c)) (x :: xs) =
          pyMaxGo (fun c => .ok (f c)) x (f x) xs := rfl
      rcases hfirst with rfl | ⟨pre, post, hys, hlt, hpre⟩
      · refine ⟨r, [], xs, by rw [hstep]; exact hr, rfl, ?_, by simp⟩
        intro d hd
        rcases List.mem_cons.mp hd with h' | h'
        · exact h' ▸ le_refl _
        · exact hall d h'
      · refine ⟨r, x :: pre, post, by rw [hstep]; exact hr, by rw [hys]; rfl, ?_, ?_⟩
        · intro d hd
          rcases List.mem_cons.mp hd with h' | h'
          · exact h' ▸ le_of_lt hlt
          · exact hall d h'
        · intro d hd
          rcases List.mem_cons.mp hd with h' | h'
          · exact h' ▸ hlt
          · exact hpre d h'

/-- Claim C4: a candidate's score is 2 per case-insensitive containment of a
non-empty known artist/title/album in the corresponding field plus 1 for an
on-disk file; an empty known field contributes nothing; and the candidate
Python's `max` picks from a result list is always a maximum-scoring one,
ties resolved in favour of the first-encountered candidate. -/
theorem score_and_selection_spec (a t al : PyStr) (hit : Candidate)
    (aL tL abL : String) (cs : List Candidate) (h : cs ≠ []) :
    (_score_lidarr_candidate hit (pyLower (orEmpty a)) (pyLower (orEmpty t))
        (pyLower (orEmpty al)) =
      2 * (if substrMatch a hit.artistName then 1 else 0) +
      2 * (if substrMatch t hit.title then 1 else 0) +
      2 * (if substrMatch al hit.albumTitle then 1 else 0) +
      (if hit.hasFile then 1 else 0)) ∧
    (∀ f : String, substrMatch none f = false ∧ substrMatch (some "") f = false) ∧
    (∃ best pre post,
      pyMaxE (fun c => .ok (_score_lidarr_candidate c aL tL abL)) cs = .ok best ∧
      cs = pre ++ best :: post ∧
      (∀ d ∈ cs, _score_lidarr_candidate d aL tL abL ≤
        _score_lidarr_candidate best aL tL abL) ∧
      (∀ d ∈ pre, _score_lidarr_candidate d aL tL abL <
        _score_lidarr_candidate best aL tL abL)) := by
  refine ⟨?_, ?_, pyMaxE_pure _ cs h⟩
  · simp only [_score_lidarr_candidate, substrMatch_iff]
    split_ifs <;> omega
  · intro f
    exact ⟨rfl, by simp [substrMatch, truthy]⟩

/-- Witness for C4 on a concrete candidate with artist and title matches and
an on-disk file, inside a singleton result list. -/
theorem score_and_selection_spec_witness :
    (_score_lidarr_candidate ⟨"x", "a", "", true, none⟩
        (pyLower (orEmpty (some "a"))) (pyLower (orEmpty (some "x")))
        (pyLower (orEmpty none)) =
      2 * (if substrMatch (some "a") (Candidate.mk "x" "a" "" true none).artistName then 1 else 0) +
      2 * (if substrMatch (some "x") (Candidate.mk "x" "a" "" true none).title then 1 else 0) +
      2 * (if substrMatch none (Candidate.mk "x" "a" "" true none).albumTitle then 1 else 0) +
      (if (Candidate.mk "x" "a" "" true none).hasFile then 1 else 0)) ∧
    (∀ f : String, substrMatch none f = false ∧ substrMatch (some "") f = false) ∧
    (∃ best pre post,
      pyMaxE (fun c => .ok (_score_lidarr_candidate c "a" "x" ""))
        [Candidate.mk "x" "a" "" true none] = .ok best ∧
      [Candidate.mk "x" "a" "" true none] = pre ++ best :: post ∧
      (∀ d ∈ [Candidate.mk "x" "a" "" true none],
        _score_lidarr_candidate d "a" "x" "" ≤ _score_lidarr_candidate best "a" "x" "") ∧
      (∀ d ∈ pre,
        _score_lidarr_candidate d "a" "x" "" < _score_lidarr_candidate best "a" "x" "")) :=
  score_and_selection_spec (some "a") (some "x") none ⟨"x", "a", "", true, none⟩
    "a" "x" "" [⟨"x", "a", "", true, none⟩] (List.cons_ne_nil _ _)

/-- The ordered search-term list as the spec describes it: artist+title,
artist+album, title alone, album+artist — each kept only when every
component is non-empty — followed by the guid's trailing segment when the
guid is present, the segment non-empty and not already in the list. -/
def searchTermsSpec (artist track album guid : PyStr) : List String :=
  let cands : List (Bool × String) :=
    [(truthy artist && truthy track, fstr artist ++ " " ++ fstr track),
     (truthy artist && truthy album, fstr artist ++ " " ++ fstr album),
     (truthy track, fstr track),
     (truthy album && truthy artist, fstr album ++ " " ++ fstr artist)]
  let base := (cands.filter (fun c => c.1)).map (fun c => c.2)
  let tail := pySplitTail (fstr guid)
  if truthy guid && (tail ≠ "" && !(base.contains tail)) then base ++ [tail]
  else base

/-- The per-term iteration as the amended claim describes it: walk the terms
in order; for the first term whose search yields at least one result, take
the best-scoring candidate and, if its score is at least 2 and it carries a
non-null id, return it immediately; otherwise move on; exhausted terms give
`None`. -/
def lookupSpecGo (env : SearchEnv) (aL tL abL : String) :
    List String → Except Unit (Option MatchRes)
  | [] => .ok none
  | term :: rest =>
      match env term with
      | some (h :: hs) =>
          match pyMaxE (fun x => scoreRawHit x aL tL abL) (h :: hs) with
          | .error e => .error e
          | .ok best =>
              match scoreRawHit best aL tL abL with
              | .error e => .error e
              | .ok bs =>
                  if 2 ≤ bs then
                    match rawId best with
                    | some i => .ok (some ⟨i⟩)
                    | none => lookupSpecGo env aL tL abL rest
                  else lookupSpecGo env aL tL abL rest
      | _ => lookupSpecGo env aL tL abL rest

/-- The whole lookup as described by the (amended) spec sentence. -/
def lookupSpec (env : SearchEnv) (artist track album guid : PyStr) :
    Except Unit (Option MatchRes) :=
  lookupSpecGo env (pyLower (orEmpty artist)) (pyLower (orEmpty track))
    (pyLower (orEmpty album)) (searchTermsSpec artist track album guid)

theorem search_terms_eq (artist track album guid : PyStr) :
    lidarr_search_terms artist track album guid =
      searchTermsSpec artist track album guid := by
  unfold lidarr_search_terms searchTermsSpec
  cases hat : truthy artist <;> cases htt : truthy track <;>
    cases hal : truthy album <;> cases hg : truthy guid <;>
      simp [List.filter, List.contains]

theorem lookup_go_eq (env : SearchEnv) (aL tL abL : String) :
    ∀ terms : List String,
      lidarr_lookup_go env aL tL abL terms = lookupSpecGo env aL tL abL terms := by
  intro terms
  induction terms with
  | nil => rfl
  | cons term rest ih =>
      show (match env term with
        | none => lidarr_lookup_go env aL tL abL rest
        | some [] => lidarr_lookup_go env aL tL abL rest
        | some (h :: hs) =>
            match pyMaxE (fun x => scoreRawHit x aL tL abL) (h :: hs) with
            | .error e => .error e
            | .ok best =>
                match scoreRawHit best aL tL abL with
                | .error e => .error e
                | .ok best_score =>
                    if 2 ≤ best_score ∧ (rawId best).isSome then
                      .ok (some ⟨(rawId best).getD 0⟩)
                    else lidarr_lookup_go env aL tL abL rest) = _
      cases henv : env term with
      | none => simpa [lookupSpecGo, henv] using ih
      | some hits =>
          cases hits with
          | nil => simpa [lookupSpecGo, henv] using ih
          | cons h hs =>
              simp only [lookupSpecGo, henv]
              cases hmax : pyMaxE (fun x => scoreRawHit x aL tL abL) (h :: hs) with
              | error e => rfl
              | ok best =>
                  dsimp only
                  cases hsc : scoreRawHit best aL tL abL with
                  | error e => rfl
                  | ok bs =>
                      dsimp only
                      by_cases h2 : 2 ≤ bs
                      · cases hid : rawId best with
                        | some i => simp [h2, hid]
                        | none => simp [h2, hid, ih]
                      · simp [h2, ih]

/-- Claim C5 (amended): the lookup equals the spec-side description — the
ordered term list built from the non-empty fields plus the fresh guid tail,
iterated in order, returning the first best-scoring candidate with score at
least 2 AND a non-null id, and `None` on exhaustion. -/
theorem lookup_refines_spec (env : SearchEnv) (artist track album guid : PyStr) :
    lidarr_track_lookup_multi env artist track album guid =
      lookupSpec env artist track album guid := by
  unfold lidarr_track_lookup_multi lookupSpec
  rw [search_terms_eq]
  exact lookup_go_eq env _ _ _ _

/-- The environment of the C5 counterexample: the first search term yields a
single candidate that matches artist and title and has a file (score 5) but
carries no id. -/
def cxEnvNoId : SearchEnv := fun term =>
  if term == "a x" then some [RawHit.obj "x" "a" .absent true none] else none

/-- Counterexample to Claim C5 as stated: for the first term the search
yields one result whose best candidate scores 5 ≥ 2, yet the lookup does
not return that candidate — it returns `None`, because the candidate's id
is null. -/
theorem lookup_requires_id_cx :
    cxEnvNoId "a x" = some [RawHit.obj "x" "a" .absent true none] ∧
    lidarr_search_terms (some "a") (some "x") none none = ["a x", "x"] ∧
    scoreRawHit (RawHit.obj "x" "a" .absent true none) "a" "x" "" = .ok 5 ∧
    2 ≤ 5 ∧
    lidarr_track_lookup_multi cxEnvNoId (some "a") (some "x") none none =
      .ok none := by
  refine ⟨rfl, rfl, rfl, by omega, rfl⟩

/-- A search environment is well-formed when every returned result item is a
JSON object whose album field, when present, is an object — exactly the
hits on which the scoring accessors cannot raise. -/
def EnvWF (env : SearchEnv) : Prop :=
  ∀ (term : String) (hits : List RawHit) (h : RawHit),
    env term = some hits → h ∈ hits → ∃ c, toCandidate h = .ok c

theorem pyMaxGo_ok {α : Type} (key : α → Except Unit Nat) (ys : List α)
    (hall : ∀ d ∈ ys, ∃ k, key d = .ok k) :
    ∀ (best : α) (kb : Nat), ∃ r, pyMaxGo key best kb ys = .ok r ∧
      (r = best ∨ r ∈ ys) := by
  induction ys with
  | nil => exact fun best kb => ⟨best, rfl, Or.inl rfl⟩
  | cons y ys ih =>
      intro best kb
      obtain ⟨ky, hky⟩ := hall y (List.mem_cons_self y ys)
      have hall' : ∀ d ∈ ys, ∃ k, key d = .ok k :=
        fun d hd => hall d (List.mem_cons_of_mem y hd)
      have hstep : pyMaxGo key best kb (y :: ys) =
          if kb < ky then pyMaxGo key y ky ys else pyMaxGo key best kb ys := by
        show (match key y with
          | Except.error e => Except.error e
          | Except.ok ky => if kb < ky then pyMaxGo key y ky ys
            else pyMaxGo key best kb ys) = _
        rw [hky]
      by_cases hk : kb < ky
      · obtain ⟨r, hr, hmem⟩ := ih hall' y ky
        refine ⟨r, by rw [hstep, if_pos hk]; exact hr, ?_⟩
        rcases hmem with rfl | hmem
        · exact Or.inr (List.mem_cons_self _ _)
        · exact Or.inr (List.mem_cons_of_mem y hmem)
      · obtain ⟨r, hr, hmem⟩ := ih hall' best kb
        refine ⟨r, by rw [hstep, if_neg hk]; exact hr, ?_⟩
        rcases hmem with rfl | hmem
        · exact Or.inl rfl
        · exact Or.inr (List.mem_cons_of_mem y hmem)

theorem pyMaxE_ok {α : Type} (key : α → Except Unit Nat) (l : List α)
    (hne : l ≠ []) (hall : ∀ d ∈ l, ∃ k, key d = .ok k) :
    ∃ r, pyMaxE key l = .ok r ∧ r ∈ l := by
  cases l with
  | nil => exact absurd rfl hne
  | cons x xs =>
      obtain ⟨kx, hkx⟩ := hall x (List.mem_cons_self x xs)
      have hstep : pyMaxE key (x :: xs) = pyMaxGo key x kx xs := by
        show (match key x with
          | Except.error e => Except.error e
          | Except.ok kx => pyMaxGo key x kx xs) = _
        rw [hkx]
      obtain ⟨r, hr, hmem⟩ :=
        pyMaxGo_ok key xs (fun d hd => hall d (List.mem_cons_of_mem x hd)) x kx
      refine ⟨r, by rw [hstep]; exact hr, ?_⟩
      rcases hmem with rfl | hmem
      · exact List.mem_cons_self _ _
      · exact List.mem_cons_of_mem x hmem

theorem lookup_go_ok (env : SearchEnv) (aL tL abL : String) (hwf : EnvWF env) :
    ∀ terms : List String, ∃ r, lidarr_lookup_go env aL tL abL terms = .ok r := by
  intro terms
  induction terms with
  | nil => exact ⟨none, rfl⟩
  | cons term rest ih =>
      show ∃ r, (match env term with
        | none => lidarr_lookup_go env aL tL abL rest
        | some [] => lidarr_lookup_go env aL tL abL rest
        | some (h :: hs) =>
            match pyMaxE (fun x => scoreRawHit x aL tL abL) (h :: hs) with
            | .error e => .error e
            | .ok best =>
                match scoreRawHit best aL tL abL with
                | .error e => .error e
                | .ok best_score =>
                    if 2 ≤ best_score ∧ (rawId best).isSome then
                      .ok (some ⟨(rawId best).getD 0⟩)
                    else lidarr_lookup_go env aL tL abL rest) = .ok r
      cases henv : env term with
      | none => exact ih
      | some hits =>
          cases hits with
          | nil => exact ih
          | cons h hs =>
              have hall : ∀ d ∈ h :: hs, ∃ k, scoreRawHit d aL tL abL = .ok k := by
                intro d hd
                obtain ⟨c, hc⟩ := hwf term (h :: hs) d henv hd
                exact ⟨_score_lidarr_candidate c aL tL abL, by
                  simp [scoreRawHit, hc, Except.map]⟩
              obtain ⟨best, hb, hmem⟩ :=
                pyMaxE_ok (fun x => scoreRawHit x aL tL abL) (h :: hs)
                  (List.cons_ne_nil h hs) hall
              obtain ⟨k, hk⟩ := hall best hmem
              dsimp only
              rw [hb]
              dsimp only
              rw [hk]
              dsimp only
              by_cases hcond : 2 ≤ k ∧ (rawId best).isSome
              · exact ⟨_, by rw [if_pos hcond]⟩
              · obtain ⟨r, hr⟩ := ih
                exact ⟨r, by rw [if_neg hcond]; exact hr⟩

/-- Claim C6 (amended): when every search-result item is a well-formed JSON
object the purge never raises, and it issues a delete request for exactly
the candidate the lookup returns — no deletion is attempted when the lookup
returns `None`. An exception propagates to purge's caller only for a
malformed result item. -/
theorem purge_wf_no_raise (env : SearchEnv) (del : DeleteEnv)
    (artist track album guid : PyStr) (hwf : EnvWF env) :
    ∃ res : Option MatchRes,
      lidarr_track_lookup_multi env artist track album guid = .ok res ∧
      purge_with_lidarr env del artist track album guid =
        .ok (match res with
             | some m => [m.id]
             | none => []) := by
  obtain ⟨r, hr⟩ := lookup_go_ok env (pyLower (orEmpty artist))
    (pyLower (orEmpty track)) (pyLower (orEmpty album)) hwf
    (lidarr_search_terms artist track album guid)
  refine ⟨r, hr, ?_⟩
  unfold purge_with_lidarr
  rw [show lidarr_track_lookup_multi env artist track album guid = .ok r from hr]
  cases r <;> rfl

/-- Witness for C6's amended theorem on the everywhere-failing environment
(vacuously well-formed): the lookup completes with `None` and the purge
issues no delete. -/
theorem purge_wf_no_raise_witness :
    ∃ res : Option MatchRes,
      lidarr_track_lookup_multi (fun _ => none)
        (some "a") (some "x") none none = Except.ok res ∧
      purge_with_lidarr (fun _ => none) (fun _ => true)
        (some "a") (some "x") none none =
        Except.ok (match res with
             | some m => [m.id]
             | none => []) :=
  purge_wf_no_raise (fun _ => none) (fun _ => true) (some "a") (some "x")
    none none
    (fun term hits h heq => by cases heq)

/-- The environment of the C6 counterexample: the first search term returns
a JSON list whose single item is not an object, so every attribute access
on it raises. -/
def cxEnvMalformed : SearchEnv := fun term =>
  if term == "a x" then some [RawHit.notObj] else none

/-- Counterexample to Claim C6 as stated: on a malformed (non-object)
search-result item the scoring raises inside the lookup and the exception
propagates out of `purge_with_lidarr` to its caller. -/
theorem purge_raises_cx :
    cxEnvMalformed "a x" = some [RawHit.notObj] ∧
    purge_with_lidarr cxEnvMalformed (fun _ => true)
      (some "a") (some "x") none none = .error () :=
  ⟨rfl, rfl⟩

theorem find?_append_eq {α : Type} (l1 l2 : List α) (p : α → Bool) :
    (l1 ++ l2).find? p =
      (match l1.find? p with
       | some a => some a
       | none => l2.find? p) := by
  induction l1 with
  | nil => rfl
  | cons x xs ih =>
      by_cases hx : p x = true
      · rw [List.cons_append, List.find?_cons_of_pos _ hx,
          List.find?_cons_of_pos _ hx]
      · rw [List.cons_append, List.find?_cons_of_neg _ hx,
          List.find?_cons_of_neg _ hx, ih]

theorem pollFold_currentTracks (l : List TrackAttrs) :
    ∀ (m0 : List (String × Snap)) (s0 : List String) (k : String),
      dictGet ((l.foldl pollStep (m0, s0)).1) k =
        (match l.reverse.find? (fun a => sidOfAttrs a == k) with
         | some a => some (snapOf a)
         | none => dictGet m0 k) := by
  induction l with
  | nil => intro m0 s0 k; rfl
  | cons x xs ih =>
      intro m0 s0 k
      rw [List.foldl_cons, List.reverse_cons, find?_append_eq]
      rw [show pollStep (m0, s0) x =
        (dictSet m0 (sidOfAttrs x) (snapOf x), s0.insert (sidOfAttrs x)) from rfl]
      rw [ih]
      cases hfind : xs.reverse.find? (fun a => sidOfAttrs a == k) with
      | some a => rfl
      | none =>
          dsimp only
          rw [dictGet_dictSet]
          by_cases hk : sidOfAttrs x = k
          · rw [if_pos hk, List.find?_cons_of_pos _ (by simp [hk])]
          · rw [if_neg hk, List.find?_cons_of_neg _ (by simp [hk])]
            rfl

theorem pollFold_seen (l : List TrackAttrs) :
    ∀ (m0 : List (String × Snap)) (s0 : List String) (k : String),
      (k ∈ (l.foldl pollStep (m0, s0)).2 ↔
        k ∈ s0 ∨ ∃ a ∈ l, sidOfAttrs a = k) := by
  induction l with
  | nil =>
      intro m0 s0 k
      simp
  | cons x xs ih =>
      intro m0 s0 k
      rw [List.foldl_cons,
        show pollStep (m0, s0) x =
          (dictSet m0 (sidOfAttrs x) (snapOf x), s0.insert (sidOfAttrs x)) from rfl,
        ih]
      constructor
      · rintro (h | h)
        · rcases List.mem_insert_iff.mp h with h | h
          · exact Or.inr ⟨x, List.mem_cons_self _ _, h.symm⟩
          · exact Or.inl h
        · obtain ⟨a, ha, hk⟩ := h
          exact Or.inr ⟨a, List.mem_cons_of_mem _ ha, hk⟩
      · rintro (h | h)
        · exact Or.inl (List.mem_insert_iff.mpr (Or.inr h))
        · obtain ⟨a, ha, hk⟩ := h
          rcases List.mem_cons.mp ha with rfl | ha
          · exact Or.inl (List.mem_insert_iff.mpr (Or.inl hk.symm))
          · exact Or.inr ⟨a, ha, hk⟩

/-- Claim C7 (amended): after a successful poll cycle the live map binds
every session id listed this cycle to its freshly parsed snapshot (the last
occurrence winning), while every other key keeps its previous binding —
departed sessions are retained in the live map, not removed; it is
`last_active`, the diff basis, that holds exactly the listed ids. -/
theorem poll_live_map_spec (st : PollState) (listing : List TrackAttrs)
    (k : String) :
    (dictGet (pollCycle st listing).currentTracks k =
      (match listing.reverse.find? (fun a => sidOfAttrs a == k) with
       | some a => some (snapOf a)
       | none => dictGet st.currentTracks k)) ∧
    (k ∈ (pollCycle st listing).lastActive ↔ ∃ a ∈ listing, sidOfAttrs a = k) := by
  constructor
  · exact pollFold_currentTracks listing st.currentTracks [] k
  · have h := pollFold_seen listing st.currentTracks [] k
    simpa using h

/-- The single-track listing of the C7 counterexample. -/
def cxAttrsRetained : TrackAttrs :=
  ⟨some "A", none, some "T", none, some "k1", .absent, .absent, none⟩

/-- Counterexample to Claim C7 as stated: after a successful cycle with an
empty listing, the live map still contains the session id of the previous
cycle — keys not present this cycle are not removed. -/
theorem poll_live_map_retains_cx :
    dictGet (pollCycle (pollCycle ⟨[], [], []⟩ [cxAttrsRetained]) []).currentTracks
        "k1" = some (snapOf cxAttrsRetained) ∧
    (([] : List TrackAttrs).map sidOfAttrs).contains "k1" = false ∧
    "k1" ∉ (pollCycle (pollCycle ⟨[], [], []⟩ [cxAttrsRetained]) []).lastActive := by
  refine ⟨rfl, rfl, ?_⟩
  simp [pollCycle]

/-- Claim C8 (amended): the stored progress fraction is `viewOffset/duration`
with parse failures and division by zero clamped to 0; it lies in [0, 1]
whenever the reported position is between 0 and the duration, but it
exceeds 1 whenever the position exceeds a positive duration — there is no
upper clamp. -/
theorem progress_fraction_spec :
    (∀ a b : ℚ, 0 ≤ a → a ≤ b →
      0 ≤ computeFrac (.num a) (.num b) ∧ computeFrac (.num a) (.num b) ≤ 1) ∧
    (∀ v : RawVal, computeFrac v .unparsable = 0) ∧
    (∀ d : RawVal, computeFrac .unparsable d = 0) ∧
    (∀ a : ℚ, computeFrac (.num a) (.num 0) = 0) ∧
    (∀ a b : ℚ, 0 < b → b < a → 1 < computeFrac (.num a) (.num b)) ∧
    (∀ attrs : TrackAttrs, (snapOf attrs).progress_fraction =
      computeFrac attrs.viewOffset attrs.duration) := by
  refine ⟨?_, ?_, ?_, ?_, ?_, fun _ => rfl⟩
  · intro a b ha hab
    by_cases hb : b = 0
    · subst hb
      have ha0 : a = 0 := le_antisymm hab ha
      subst ha0
      constructor <;> simp [computeFrac]
    · have hb0 : 0 < b := lt_of_le_of_ne (le_trans ha hab) (Ne.symm hb)
      constructor
      · simp only [computeFrac]
        rw [if_neg hb]
        exact div_nonneg ha (le_of_lt hb0)
      · simp only [computeFrac]
        rw [if_neg hb]
        exact (div_le_one hb0).mpr hab
  · intro v
    cases v <;> rfl
  · intro d
    cases d <;> rfl
  · intro a
    simp [computeFrac]
  · intro a b hb hba
    simp only [computeFrac]
    rw [if_neg (ne_of_gt hb)]
    exact (one_lt_div hb).mpr hba

/-- Witness for C8's amended theorem at position 1 of duration 2 (in range)
and position 2000 of duration 1000 (overrun). -/
theorem progress_fraction_spec_witness :
    (0 ≤ computeFrac (.num 1) (.num 2) ∧ computeFrac (.num 1) (.num 2) ≤ 1) ∧
    1 < computeFrac (.num 2000) (.num 1000) :=
  ⟨progress_fraction_spec.1 1 2 (by norm_num) (by norm_num),
   progress_fraction_spec.2.2.2.2.1 2000 1000 (by norm_num) (by norm_num)⟩

/-- The single-track listing of the C8 counterexample: the media server
reports a position of 2000 against a duration of 1000. -/
def cxAttrsOverrun : TrackAttrs :=
  ⟨some "A", none, some "T", none, some "k2", .num 2000, .num 1000, none⟩

/-- Counterexample to Claim C8 as stated: the snapshot stored for a track
whose position exceeds its duration carries progress fraction 2, outside
[0, 1]. -/
theorem progress_fraction_exceeds_one_cx :
    dictGet (pollCycle ⟨[], [], []⟩ [cxAttrsOverrun]).currentTracks "k2" =
      some (snapOf cxAttrsOverrun) ∧
    (snapOf cxAttrsOverrun).progress_fraction = 2 ∧
    ¬((snapOf cxAttrsOverrun).progress_fraction ≤ 1) := by
  refine ⟨rfl, ?_, ?_⟩
  · show computeFrac (.num 2000) (.num 1000) = 2
    norm_num [computeFrac]
  · show ¬(computeFrac (.num 2000) (.num 1000) ≤ 1)
    norm_num [computeFrac]

end MusicBrain

